import Mathlib

/-!
Verification of the hail Python binding layer (src/python/hail/expr.py,
src/python/hail/stats.py, src/python/hail/java.py) against its
natural-language specification.

The source is Python 2 code (it uses `long`, `unicode`, `iteritems`,
`xrange`).  The shallow embedding below models:

* Python values (`PyValue`): the Python-2 value universe this binding layer
  touches.  Floats are modelled as rationals (the code performs no float
  arithmetic; it only passes float values through and compares them).
  Python dicts are modelled as association lists in insertion order; sets
  as lists of their elements in iteration order.
* Hail type tags (`PyType`) mirroring the `Type` subclasses of expr.py.
* JVM-side values (`JValue`): the engine side of the py4j bridge.  The
  bridge's own serialization is out of scope per the spec and is modelled
  as faithful: a primitive Python value returned unchanged by a converter
  crosses the bridge as `JValue.prim` and deserializes back to itself.

Exceptions are modelled with `Except`: a function returning
`Except.error e` models the Python code raising exception `e`.
-/

/-- A Python 2 value, as far as this binding layer can observe it.
Modelled from the spec: the `hail.representation` record classes
(Variant, AltAllele, Genotype, Call, Locus, Interval) live outside the
three source files; per the spec they are lightweight handles on remote
objects, so they are carried here as opaque identifiers.  `Struct` (also
from `hail.representation`) holds named fields and is carried as an
association list of field name to value. -/
inductive PyValue where
| none
| int (n : Int)
| long (n : Int)
| float (q : Rat)
| bool (b : Bool)
| str (s : String)
| unicode (s : String)
| list (xs : List PyValue)
| set (xs : List PyValue)
| dict (ps : List (PyValue × PyValue))
| struct (fs : List (String × PyValue))
| variant (id : Nat)
| altallele (id : Nat)
| genotype (id : Nat)
| call (id : Nat)
| locus (id : Nat)
| interval (id : Nat)

/-- The Hail type tags mirrored by expr.py: TInt, TLong, TFloat, TDouble,
TString, TBoolean, TArray, TSet, TDict, TStruct, TVariant, TAltAllele,
TGenotype, TCall, TLocus, TInterval.  A `TStruct`'s field list carries the
field names and types in order (field attributes are elided: no operation
modelled here reads them). -/
inductive PyType where
| tInt
| tLong
| tFloat
| tDouble
| tString
| tBoolean
| tArray (elem : PyType)
| tSet (elem : PyType)
| tDict (key : PyType) (value : PyType)
| tStruct (fields : List (String × PyType))
| tVariant
| tAltAllele
| tGenotype
| tCall
| tLocus
| tInterval

/-- The exceptions the embedded code can raise.  `typeCheckError` is
expr.py's `TypeCheckError`; the others are the builtin Python exceptions
and the py4j bridge error. -/
inductive PyErr where
| typeCheckError
| notImplementedError
| typeError
| attributeError
| valueError (msg : String)
| py4jError

/-- Lookup in an association list keyed by strings (first match wins),
used for `Struct` field access and for the string-keyed dictionaries of
the source (`__singletons__`, `Singleton._instances`). -/
def assocLookup {α : Type} : List (String × α) → String → Option α
| [], _ => Option.none
| (k, a) :: r, n => if k = n then some a else assocLookup r n

theorem assocLookup_sizeOf {α : Type} [SizeOf α] :
    ∀ (l : List (String × α)) (n : String) (a : α),
      assocLookup l n = some a → sizeOf a < sizeOf l := by
  intro l
  induction l with
  | nil => intro n a h; simp [assocLookup] at h
  | cons p r ih =>
    intro n a h
    obtain ⟨k, b⟩ := p
    by_cases hk : k = n
    · simp [assocLookup, hk] at h
      subst h
      simp
      omega
    · simp [assocLookup, hk] at h
      have := ih n a h
      simp
      omega

/-- Every `PyValue` has positive size (used for termination measures). -/
theorem pyValue_sizeOf_pos : ∀ v : PyValue, 1 ≤ sizeOf v := by
  intro v
  cases v <;> simp

/-- Every `PyType` has positive size (used for termination measures). -/
theorem pyType_sizeOf_pos : ∀ t : PyType, 1 ≤ sizeOf t := by
  intro t
  cases t <;> simp <;> omega

/-- Python 2 truthiness of a value (`if annotation:`): None, zero numbers,
empty strings and empty containers are falsy; everything else, including
instances of ordinary classes such as the representation records and
Struct, is truthy. -/
def pytruthy : PyValue → Bool
| .none => false
| .int n => decide (n ≠ 0)
| .long n => decide (n ≠ 0)
| .float q => decide (q ≠ 0)
| .bool b => b
| .str s => decide (s ≠ "")
| .unicode s => decide (s ≠ "")
| .list xs => !xs.isEmpty
| .set xs => !xs.isEmpty
| .dict ps => !ps.isEmpty
| .struct _ => true
| .variant _ => true
| .altallele _ => true
| .genotype _ => true
| .call _ => true
| .locus _ => true
| .interval _ => true

/-- `isinstance(v, int)` in Python 2: `bool` is a subclass of `int`,
`long` is a distinct type. -/
def isInstInt : PyValue → Bool
| .int _ => true
| .bool _ => true
| _ => false

/-- `isinstance(v, long)` in Python 2. -/
def isInstLong : PyValue → Bool
| .long _ => true
| _ => false

/-- `isinstance(v, float)` in Python 2 (`bool`/`int` are not floats). -/
def isInstFloat : PyValue → Bool
| .float _ => true
| _ => false

/-- `isinstance(v, str)` in Python 2 (`unicode` is a separate type). -/
def isInstStr : PyValue → Bool
| .str _ => true
| _ => false

/-- `isinstance(v, unicode)` in Python 2. -/
def isInstUnicode : PyValue → Bool
| .unicode _ => true
| _ => false

/-- `isinstance(v, bool)`. -/
def isInstBool : PyValue → Bool
| .bool _ => true
| _ => false

/-- `isinstance(v, hail.representation.Variant)`, and likewise below for
the other record classes. -/
def isInstVariant : PyValue → Bool
| .variant _ => true
| _ => false

def isInstAltAllele : PyValue → Bool
| .altallele _ => true
| _ => false

def isInstGenotype : PyValue → Bool
| .genotype _ => true
| _ => false

def isInstCall : PyValue → Bool
| .call _ => true
| _ => false

def isInstLocus : PyValue → Bool
| .locus _ => true
| _ => false

def isInstInterval : PyValue → Bool
| .interval _ => true
| _ => false

mutual

/-- `Type._typecheck` of expr.py, one case per `Type` subclass.  Each
primitive/record case embeds `if annotation and not isinstance(...):
raise TypeCheckError(...)`; the container cases (TArray, TSet, TDict,
TStruct) additionally recurse into elements, entries and fields exactly
as the source does.  Error messages are elided. -/
def typecheck : PyType → PyValue → Except PyErr Unit
| .tInt, v =>
  if pytruthy v && !isInstInt v then .error .typeCheckError else .ok ()
| .tLong, v =>
  if pytruthy v && !(isInstLong v || isInstInt v) then .error .typeCheckError else .ok ()
| .tFloat, v =>
  if pytruthy v && !isInstFloat v then .error .typeCheckError else .ok ()
| .tDouble, v =>
  if pytruthy v && !isInstFloat v then .error .typeCheckError else .ok ()
| .tString, v =>
  if pytruthy v && !(isInstStr v || isInstUnicode v) then .error .typeCheckError else .ok ()
| .tBoolean, v =>
  if pytruthy v && !isInstBool v then .error .typeCheckError else .ok ()
| .tArray e, v =>
  if pytruthy v then
    match v with
    | .list xs => typecheckElems e xs
    | _ => .error .typeCheckError
  else .ok ()
| .tSet e, v =>
  if pytruthy v then
    match v with
    | .set xs => typecheckElems e xs
    | _ => .error .typeCheckError
  else .ok ()
| .tDict kt vt, v =>
  if pytruthy v then
    match v with
    | .dict ps => typecheckPairs kt vt ps
    | _ => .error .typeCheckError
  else .ok ()
| .tStruct fields, v =>
  if pytruthy v then
    match v with
    | .struct fs => typecheckFields fields fs
    | _ => .error .typeCheckError
  else .ok ()
| .tVariant, v =>
  if pytruthy v && !isInstVariant v then .error .typeCheckError else .ok ()
| .tAltAllele, v =>
  if pytruthy v && !isInstAltAllele v then .error .typeCheckError else .ok ()
| .tGenotype, v =>
  if pytruthy v && !isInstGenotype v then .error .typeCheckError else .ok ()
| .tCall, v =>
  if pytruthy v && !isInstCall v then .error .typeCheckError else .ok ()
| .tLocus, v =>
  if pytruthy v && !isInstLocus v then .error .typeCheckError else .ok ()
| .tInterval, v =>
  if pytruthy v && !isInstInterval v then .error .typeCheckError else .ok ()
termination_by t v => (sizeOf t, sizeOf v)

/-- `for elt in annotation: self.element_type._typecheck(elt)`: the first
failing element's exception propagates. -/
def typecheckElems (e : PyType) : List PyValue → Except PyErr Unit
| [] => .ok ()
| x :: r =>
  match typecheck e x with
  | .ok _ => typecheckElems e r
  | .error err => .error err
termination_by xs => (sizeOf e, sizeOf xs)

/-- `for k, v in annotation.iteritems(): key_type._typecheck(k);
value_type._typecheck(v)`. -/
def typecheckPairs (kt vt : PyType) : List (PyValue × PyValue) → Except PyErr Unit
| [] => .ok ()
| (k, v) :: r =>
  match typecheck kt k with
  | .ok _ =>
    match typecheck vt v with
    | .ok _ => typecheckPairs kt vt r
    | .error err => .error err
  | .error err => .error err
termination_by ps => (sizeOf kt + sizeOf vt, sizeOf ps)
decreasing_by
  all_goals simp_wf
  all_goals first
    | (apply Prod.Lex.right; omega)
    | (apply Prod.Lex.left; have hvt := pyType_sizeOf_pos vt; omega)
    | (apply Prod.Lex.left; have hkt := pyType_sizeOf_pos kt; omega)

/-- `for f in self.fields: if not (f.name in annotation): raise ...;
f.typ._typecheck(annotation[f.name])`.  `Struct.__contains__` and
`Struct.__getitem__` are field lookup by name. -/
def typecheckFields : List (String × PyType) → List (String × PyValue) → Except PyErr Unit
| [], _ => .ok ()
| (n, t) :: fr, fs =>
  match assocLookup fs n with
  | some fv =>
    match typecheck t fv with
    | .ok _ => typecheckFields fr fs
    | .error err => .error err
  | Option.none => .error .typeCheckError
termination_by fl fs => (sizeOf fl, sizeOf fs)

end

/-- Boolean view: does `_typecheck` return normally? -/
def tcOk (t : PyType) (v : PyValue) : Bool :=
  match typecheck t v with
  | .ok _ => true
  | .error _ => false

/-- A JVM-side value reachable through the py4j bridge.
Modelled from the spec: the engine-side helper objects (`Env.jutils()`
conversions, `makeInt`/`makeLong`/`makeDouble`, `Annotation.fromSeq`, the
record classes' `_jrep` handles) live in the external engine, which the
spec treats as an opaque collaborator; they are modelled here as faithful
constructors of the corresponding JVM values.  `prim v` is a primitive
Python value that a converter returned unchanged and that the bridge
serializes faithfully (it deserializes back to exactly `v`). -/
inductive JValue where
| prim (v : PyValue)
| jint (n : Int)
| jlong (n : Int)
| jdouble (q : Rat)
| jseq (xs : List JValue)
| jset (xs : List JValue)
| jmap (ps : List (JValue × JValue))
| jrow (xs : List JValue)
| jvariant (id : Nat)
| jaltallele (id : Nat)
| jgenotype (id : Nat)
| jcall (id : Nat)
| jlocus (id : Nat)
| jinterval (id : Nat)

/-- What py4j hands to Python for a JVM value (`return annotation` in the
`_convert_to_py` of the primitive tags): primitives deserialize to the
corresponding Python value; a `prim` round-trips faithfully.  Non-primitive
JVM objects stay wrapped on the Python side; they are unreachable in every
theorem below and are mapped to `PyValue.none`. -/
def pyOfJ : JValue → PyValue
| .prim v => v
| .jint n => .int n
| .jlong n => .long n
| .jdouble q => .float q
| _ => .none

/-- Python truthiness of what py4j hands over for a JVM value: primitives
follow Python truthiness after deserialization; wrapped JVM objects
(collections, rows, records) are truthy like any Python object. -/
def jtruthy : JValue → Bool
| .prim v => pytruthy v
| .jint n => decide (n ≠ 0)
| .jlong n => decide (n ≠ 0)
| .jdouble q => decide (q ≠ 0)
| _ => true

/-- `Env.jutils().makeInt(x)`.  Modelled from the spec: the engine helper
boxes a Python int as a JVM Integer; py4j rejects arguments of any other
Python type with a bridge error. -/
def makeInt : PyValue → Except PyErr JValue
| .int n => .ok (.jint n)
| _ => .error .py4jError

/-- `Env.jutils().makeLong(x)`: boxes a Python int or long as a JVM
Long. -/
def makeLong : PyValue → Except PyErr JValue
| .int n => .ok (.jlong n)
| .long n => .ok (.jlong n)
| _ => .error .py4jError

/-- `Env.jutils().makeDouble(x)`: boxes a Python float as a JVM Double. -/
def makeDouble : PyValue → Except PyErr JValue
| .float q => .ok (.jdouble q)
| _ => .error .py4jError

/-- Python iteration (`for elt in annotation`): lists, sets and strings
iterate over their elements/characters, dicts over their keys; all other
values raise TypeError. -/
def pyIter : PyValue → Except PyErr (List PyValue)
| .list xs => .ok xs
| .set xs => .ok xs
| .str s => .ok (s.toList.map fun c => .str (String.mk [c]))
| .unicode s => .ok (s.toList.map fun c => .unicode (String.mk [c]))
| .dict ps => .ok (ps.map Prod.fst)
| _ => .error .typeError

/-- `annotation.iteritems()`: only dicts have it; anything else raises
AttributeError. -/
def iterItems : PyValue → Except PyErr (List (PyValue × PyValue))
| .dict ps => .ok ps
| _ => .error .attributeError

/-- `dict.get(name)` with a string key: string-keyed entries are compared
by content (str and unicode keys equal when their text is equal). -/
def dictGetStr : List (PyValue × PyValue) → String → Option PyValue
| [], _ => Option.none
| (k, v) :: r, n =>
  match k with
  | .str s => if s = n then some v else dictGetStr r n
  | .unicode s => if s = n then some v else dictGetStr r n
  | _ => dictGetStr r n

/-- `annotation.get(f.name)` in `TStruct._convert_to_j`: `Struct.get` and
`dict.get` return the named field or None when absent; other values have
no `get` and raise AttributeError. -/
def structGet : PyValue → String → Except PyErr PyValue
| .struct fs, n => .ok ((assocLookup fs n).getD .none)
| .dict ps, n => .ok ((dictGetStr ps n).getD .none)
| _, _ => .error .attributeError

/-- `annotation._jrep` of the representation record classes; values of
other types have no `_jrep` attribute and raise AttributeError. -/
def jrepOf : PyValue → Except PyErr JValue
| .variant i => .ok (.jvariant i)
| .altallele i => .ok (.jaltallele i)
| .genotype i => .ok (.jgenotype i)
| .call i => .ok (.jcall i)
| .locus i => .ok (.jlocus i)
| .interval i => .ok (.jinterval i)
| _ => .error .attributeError

theorem dictGetStr_sizeOf :
    ∀ (ps : List (PyValue × PyValue)) (n : String) (v : PyValue),
      dictGetStr ps n = some v → sizeOf v < sizeOf ps := by
  intro ps
  induction ps with
  | nil => intro n v h; simp [dictGetStr] at h
  | cons p r ih =>
    intro n v h
    obtain ⟨k, b⟩ := p
    have hr : dictGetStr r n = some v → sizeOf v < sizeOf ((k, b) :: r) := by
      intro h2
      have := ih n v h2
      simp
      omega
    cases k <;> simp [dictGetStr] at h <;> try exact hr h
    case str s =>
      by_cases hs : s = n
      · simp [hs] at h
        subst h
        simp
        omega
      · simp [hs] at h
        exact hr h
    case unicode s =>
      by_cases hs : s = n
      · simp [hs] at h
        subst h
        simp
        omega
      · simp [hs] at h
        exact hr h

/-- Whatever `structGet` returns is no bigger than the value it was read
from (used for termination of the struct converter). -/
theorem structGet_sizeOf :
    ∀ (v : PyValue) (n : String) (fv : PyValue),
      structGet v n = .ok fv → sizeOf fv ≤ sizeOf v := by
  intro v n fv h
  cases v <;> simp [structGet] at h
  case struct fs =>
    cases hl : assocLookup fs n with
    | none =>
      rw [hl] at h
      simp at h
      subst h
      have := pyValue_sizeOf_pos (.struct fs)
      simp [pyValue_sizeOf_pos]
    | some a =>
      rw [hl] at h
      simp at h
      subst h
      have := assocLookup_sizeOf fs n a hl
      simp
      omega
  case dict ps =>
    cases hl : dictGetStr ps n with
    | none =>
      rw [hl] at h
      simp at h
      subst h
      simp [pyValue_sizeOf_pos]
    | some a =>
      rw [hl] at h
      simp at h
      subst h
      have := dictGetStr_sizeOf ps n a hl
      simp
      omega

mutual

/-- `Type._convert_to_j` of expr.py, one case per `Type` subclass:

* TInt/TLong/TDouble: `if annotation: return makeInt/makeLong/makeDouble(
  annotation) else: return annotation` (the falsy branch returns the
  Python value unchanged, which the bridge serializes as `prim`);
* TFloat: unconditionally `raise NotImplementedError(...)` (the makeFloat
  body is commented out in the source pending a py4j fix);
* TString/TBoolean: `return annotation` unchanged;
* TArray/TSet: `if annotation is not None:` convert each element of the
  iteration and build an engine ISeq / Set, else return None;
* TDict: `if annotation is not None:` convert each `iteritems()` pair and
  build an engine Map, else return None;
* TStruct: `if annotation is not None:` convert `annotation.get(f.name)`
  for each declared field and build `Annotation.fromSeq(...)`;
* record tags: `if annotation is not None: return annotation._jrep`. -/
def convert_to_j : PyType → PyValue → Except PyErr JValue
| .tInt, v => if pytruthy v then makeInt v else .ok (.prim v)
| .tLong, v => if pytruthy v then makeLong v else .ok (.prim v)
| .tFloat, _ => .error .notImplementedError
| .tDouble, v => if pytruthy v then makeDouble v else .ok (.prim v)
| .tString, v => .ok (.prim v)
| .tBoolean, v => .ok (.prim v)
| .tArray e, v =>
  match v with
  | .none => .ok (.prim .none)
  | v =>
    match pyIter v with
    | .ok xs =>
      match convert_to_jElems e xs with
      | .ok ys => .ok (.jseq ys)
      | .error err => .error err
    | .error err => .error err
| .tSet e, v =>
  match v with
  | .none => .ok (.prim .none)
  | v =>
    match pyIter v with
    | .ok xs =>
      match convert_to_jElems e xs with
      | .ok ys => .ok (.jset ys)
      | .error err => .error err
    | .error err => .error err
| .tDict kt vt, v =>
  match v with
  | .none => .ok (.prim .none)
  | v =>
    match iterItems v with
    | .ok ps =>
      match convert_to_jPairs kt vt ps with
      | .ok qs => .ok (.jmap qs)
      | .error err => .error err
    | .error err => .error err
| .tStruct fields, v =>
  match v with
  | .none => .ok (.prim .none)
  | v =>
    match convert_to_jFields fields v with
    | .ok ys => .ok (.jrow ys)
    | .error err => .error err
| .tVariant, v =>
  match v with
  | .none => .ok (.prim .none)
  | v => jrepOf v
| .tAltAllele, v =>
  match v with
  | .none => .ok (.prim .none)
  | v => jrepOf v
| .tGenotype, v =>
  match v with
  | .none => .ok (.prim .none)
  | v => jrepOf v
| .tCall, v =>
  match v with
  | .none => .ok (.prim .none)
  | v => jrepOf v
| .tLocus, v =>
  match v with
  | .none => .ok (.prim .none)
  | v => jrepOf v
| .tInterval, v =>
  match v with
  | .none => .ok (.prim .none)
  | v => jrepOf v
termination_by t v => (sizeOf t, sizeOf v)

/-- `[self.element_type._convert_to_j(elt) for elt in annotation]`. -/
def convert_to_jElems (e : PyType) : List PyValue → Except PyErr (List JValue)
| [] => .ok []
| x :: r =>
  match convert_to_j e x with
  | .ok y =>
    match convert_to_jElems e r with
    | .ok ys => .ok (y :: ys)
    | .error err => .error err
  | .error err => .error err
termination_by xs => (sizeOf e, sizeOf xs)

/-- `{key_type._convert_to_j(k): value_type._convert_to_j(v) for k, v in
annotation.iteritems()}`. -/
def convert_to_jPairs (kt vt : PyType) : List (PyValue × PyValue) → Except PyErr (List (JValue × JValue))
| [] => .ok []
| (k, v) :: r =>
  match convert_to_j kt k with
  | .ok jk =>
    match convert_to_j vt v with
    | .ok jv =>
      match convert_to_jPairs kt vt r with
      | .ok js => .ok ((jk, jv) :: js)
      | .error err => .error err
    | .error err => .error err
  | .error err => .error err
termination_by ps => (sizeOf kt + sizeOf vt, sizeOf ps)
decreasing_by
  all_goals simp_wf
  all_goals first
    | (apply Prod.Lex.right; omega)
    | (apply Prod.Lex.left; have hvt := pyType_sizeOf_pos vt; omega)
    | (apply Prod.Lex.left; have hkt := pyType_sizeOf_pos kt; omega)

/-- `[f.typ._convert_to_j(annotation.get(f.name)) for f in self.fields]`. -/
def convert_to_jFields : List (String × PyType) → PyValue → Except PyErr (List JValue)
| [], _ => .ok []
| (n, t) :: fr, v =>
  match structGet v n with
  | .ok fv =>
    match convert_to_j t fv with
    | .ok y =>
      match convert_to_jFields fr v with
      | .ok ys => .ok (y :: ys)
      | .error err => .error err
    | .error err => .error err
  | .error err => .error err
termination_by fl v => (sizeOf fl, sizeOf v)

end

/-- `Env.jutils().iterableToArrayList(annotation)` as used by
`TArray/TSet._convert_to_py`: lists the elements of an engine sequence or
set; anything else fails on the bridge. -/
def jIterToList : JValue → Except PyErr (List JValue)
| .jseq xs => .ok xs
| .jset xs => .ok xs
| _ => .error .py4jError

/-- `iterableToArrayList` over an engine Map as used by
`TDict._convert_to_py` (each entry a Scala Tuple2 read with `_1()` and
`_2()`). -/
def jMapToPairs : JValue → Except PyErr (List (JValue × JValue))
| .jmap ps => .ok ps
| _ => .error .py4jError

/-- `annotation.get(i)` on an engine Row (the value built by
`Annotation.fromSeq`), as used by `TStruct._convert_to_py`. -/
def rowGet : JValue → Nat → Except PyErr JValue
| .jrow xs, i =>
  match xs[i]? with
  | some x => .ok x
  | Option.none => .error .py4jError
| _, _ => .error .py4jError

mutual

/-- `Type._convert_to_py` of expr.py, one case per `Type` subclass:

* the six primitive tags: `return annotation` (what py4j already
  deserialized);
* TArray/TSet: `if annotation:` convert each element of
  `iterableToArrayList(annotation)` and build a list / set, else
  `return annotation`;
* TDict: `if annotation:` convert each entry pair and build a dict;
* TStruct: `if annotation:` convert `annotation.get(i)` for each declared
  field `i` and build a `Struct`;
* record tags: `if annotation: return RecordClass._from_java(annotation)`,
  modelled as recovering the record from its `_jrep` handle. -/
def convert_to_py : PyType → JValue → Except PyErr PyValue
| .tInt, j => .ok (pyOfJ j)
| .tLong, j => .ok (pyOfJ j)
| .tFloat, j => .ok (pyOfJ j)
| .tDouble, j => .ok (pyOfJ j)
| .tString, j => .ok (pyOfJ j)
| .tBoolean, j => .ok (pyOfJ j)
| .tArray e, j =>
  if jtruthy j then
    match jIterToList j with
    | .ok xs =>
      match convert_to_pyElems e xs with
      | .ok ys => .ok (.list ys)
      | .error err => .error err
    | .error err => .error err
  else .ok (pyOfJ j)
| .tSet e, j =>
  if jtruthy j then
    match jIterToList j with
    | .ok xs =>
      match convert_to_pyElems e xs with
      | .ok ys => .ok (.set ys)
      | .error err => .error err
    | .error err => .error err
  else .ok (pyOfJ j)
| .tDict kt vt, j =>
  if jtruthy j then
    match jMapToPairs j with
    | .ok ps =>
      match convert_to_pyPairs kt vt ps with
      | .ok qs => .ok (.dict qs)
      | .error err => .error err
    | .error err => .error err
  else .ok (pyOfJ j)
| .tStruct fields, j =>
  if jtruthy j then
    match convert_to_pyFieldsIdx fields 0 j with
    | .ok fs => .ok (.struct fs)
    | .error err => .error err
  else .ok (pyOfJ j)
| .tVariant, j =>
  if jtruthy j then
    match j with
    | .jvariant i => .ok (.variant i)
    | _ => .error .py4jError
  else .ok (pyOfJ j)
| .tAltAllele, j =>
  if jtruthy j then
    match j with
    | .jaltallele i => .ok (.altallele i)
    | _ => .error .py4jError
  else .ok (pyOfJ j)
| .tGenotype, j =>
  if jtruthy j then
    match j with
    | .jgenotype i => .ok (.genotype i)
    | _ => .error .py4jError
  else .ok (pyOfJ j)
| .tCall, j =>
  if jtruthy j then
    match j with
    | .jcall i => .ok (.call i)
    | _ => .error .py4jError
  else .ok (pyOfJ j)
| .tLocus, j =>
  if jtruthy j then
    match j with
    | .jlocus i => .ok (.locus i)
    | _ => .error .py4jError
  else .ok (pyOfJ j)
| .tInterval, j =>
  if jtruthy j then
    match j with
    | .jinterval i => .ok (.interval i)
    | _ => .error .py4jError
  else .ok (pyOfJ j)
termination_by t j => (sizeOf t, sizeOf j)

/-- `[self.element_type._convert_to_py(x) for x in lst]`. -/
def convert_to_pyElems (e : PyType) : List JValue → Except PyErr (List PyValue)
| [] => .ok []
| x :: r =>
  match convert_to_py e x with
  | .ok y =>
    match convert_to_pyElems e r with
    | .ok ys => .ok (y :: ys)
    | .error err => .error err
  | .error err => .error err
termination_by xs => (sizeOf e, sizeOf xs)

/-- `d[key_type._convert_to_py(x._1())] = value_type._convert_to_py(x._2())`
for each entry, in iteration order. -/
def convert_to_pyPairs (kt vt : PyType) : List (JValue × JValue) → Except PyErr (List (PyValue × PyValue))
| [] => .ok []
| (k, v) :: r =>
  match convert_to_py kt k with
  | .ok pk =>
    match convert_to_py vt v with
    | .ok pv =>
      match convert_to_pyPairs kt vt r with
      | .ok ps => .ok ((pk, pv) :: ps)
      | .error err => .error err
    | .error err => .error err
  | .error err => .error err
termination_by ps => (sizeOf kt + sizeOf vt, sizeOf ps)
decreasing_by
  all_goals simp_wf
  all_goals first
    | (apply Prod.Lex.right; omega)
    | (apply Prod.Lex.left; have hvt := pyType_sizeOf_pos vt; omega)
    | (apply Prod.Lex.left; have hkt := pyType_sizeOf_pos kt; omega)

/-- `for i, f in enumerate(self.fields): d[f.name] =
f.typ._convert_to_py(annotation.get(i))`: walks the declared fields,
reading the row at the running index `i`. -/
def convert_to_pyFieldsIdx : List (String × PyType) → Nat → JValue → Except PyErr (List (String × PyValue))
| [], _, _ => .ok []
| (n, t) :: fr, i, j =>
  match rowGet j i with
  | .ok ji =>
    match convert_to_py t ji with
    | .ok y =>
      match convert_to_pyFieldsIdx fr (i + 1) j with
      | .ok ys => .ok ((n, y) :: ys)
      | .error err => .error err
    | .error err => .error err
  | .error err => .error err
termination_by fl _ j => (sizeOf fl, sizeOf j)

/-- The same field walk with the row elements already lined up with the
declared fields (proof form of `convert_to_pyFieldsIdx`; see
`convert_to_pyFieldsIdx_zip`). -/
def convert_to_pyFieldsZip : List (String × PyType) → List JValue → Except PyErr (List (String × PyValue))
| [], _ => .ok []
| (_, _) :: _, [] => .error .py4jError
| (n, t) :: fr, x :: xs =>
  match convert_to_py t x with
  | .ok y =>
    match convert_to_pyFieldsZip fr xs with
    | .ok ys => .ok ((n, y) :: ys)
    | .error err => .error err
  | .error err => .error err
termination_by fl xs => (sizeOf fl, sizeOf xs)

end

mutual

/-- Python 2 value equality (`==`) restricted to the shapes this
development needs, as a sound underapproximation: `int` and `long` of the
same mathematical value are equal, `str` and `unicode` of the same text
are equal, containers compare elementwise in order, and everything else
compares structurally. -/
def pyEq : PyValue → PyValue → Bool
| .none, .none => true
| .int n, .int m => decide (n = m)
| .int n, .long m => decide (n = m)
| .long n, .int m => decide (n = m)
| .long n, .long m => decide (n = m)
| .float q, .float r => decide (q = r)
| .bool a, .bool b => a == b
| .str s, .str t => decide (s = t)
| .str s, .unicode t => decide (s = t)
| .unicode s, .str t => decide (s = t)
| .unicode s, .unicode t => decide (s = t)
| .list xs, .list ys => pyEqList xs ys
| .set xs, .set ys => pyEqList xs ys
| .dict ps, .dict qs => pyEqPairs ps qs
| .struct fs, .struct gs => pyEqFields fs gs
| .variant a, .variant b => a == b
| .altallele a, .altallele b => a == b
| .genotype a, .genotype b => a == b
| .call a, .call b => a == b
| .locus a, .locus b => a == b
| .interval a, .interval b => a == b
| _, _ => false
termination_by a b => sizeOf a

def pyEqList : List PyValue → List PyValue → Bool
| [], [] => true
| x :: xs, y :: ys => pyEq x y && pyEqList xs ys
| _, _ => false
termination_by xs ys => sizeOf xs

def pyEqPairs : List (PyValue × PyValue) → List (PyValue × PyValue) → Bool
| [], [] => true
| (k, v) :: ps, (l, w) :: qs => pyEq k l && pyEq v w && pyEqPairs ps qs
| _, _ => false
termination_by ps qs => sizeOf ps

def pyEqFields : List (String × PyValue) → List (String × PyValue) → Bool
| [], [] => true
| (n, v) :: fs, (m, w) :: gs => decide (n = m) && pyEq v w && pyEqFields fs gs
| _, _ => false
termination_by fs gs => sizeOf fs

end

mutual

/-- Strict conformance of a value to a type tag: the value is None, or an
instance of exactly the tag's Python carrier with recursively conforming
contents; a struct value must list exactly the declared field names, in
declared order, with no repeated name.  This is a (strictly stronger)
refinement of `_typecheck`, used to state the amended marshaling claims;
`bool` is excluded from the int-like carriers. -/
def strict : PyType → PyValue → Bool
| _, .none => true
| .tInt, .int _ => true
| .tLong, .int _ => true
| .tLong, .long _ => true
| .tFloat, .float _ => true
| .tDouble, .float _ => true
| .tString, .str _ => true
| .tString, .unicode _ => true
| .tBoolean, .bool _ => true
| .tArray e, .list xs => strictList e xs
| .tSet e, .set xs => strictList e xs
| .tDict kt vt, .dict ps => strictPairs kt vt ps
| .tStruct fields, .struct fs => strictFields fields fs
| .tVariant, .variant _ => true
| .tAltAllele, .altallele _ => true
| .tGenotype, .genotype _ => true
| .tCall, .call _ => true
| .tLocus, .locus _ => true
| .tInterval, .interval _ => true
| _, _ => false
termination_by t v => (sizeOf t, sizeOf v)

def strictList (e : PyType) : List PyValue → Bool
| [] => true
| x :: r => strict e x && strictList e r
termination_by xs => (sizeOf e, sizeOf xs)

def strictPairs (kt vt : PyType) : List (PyValue × PyValue) → Bool
| [] => true
| (k, v) :: r => strict kt k && strict vt v && strictPairs kt vt r
termination_by ps => (sizeOf kt + sizeOf vt, sizeOf ps)
decreasing_by
  all_goals simp_wf
  all_goals first
    | (apply Prod.Lex.right; omega)
    | (apply Prod.Lex.left; have hvt := pyType_sizeOf_pos vt; omega)
    | (apply Prod.Lex.left; have hkt := pyType_sizeOf_pos kt; omega)

def strictFields : List (String × PyType) → List (String × PyValue) → Bool
| [], [] => true
| (n, t) :: fr, (m, v) :: vr =>
  decide (n = m) && (assocLookup fr n).isNone && strict t v && strictFields fr vr
| _, _ => false
termination_by fl vl => (sizeOf fl, sizeOf vl)

end

mutual

/-- `TFloat` occurs nowhere in the tag (TFloat's `_convert_to_j` is
unconditionally unimplemented in the source, so marshaling claims hold
only away from it). -/
def noTFloat : PyType → Bool
| .tFloat => false
| .tArray e => noTFloat e
| .tSet e => noTFloat e
| .tDict kt vt => noTFloat kt && noTFloat vt
| .tStruct fields => noTFloatFields fields
| _ => true
termination_by t => sizeOf t

def noTFloatFields : List (String × PyType) → Bool
| [] => true
| (_, t) :: fr => noTFloat t && noTFloatFields fr
termination_by fl => sizeOf fl

end

/-- An engine-side Hail type object (`jtype`), the argument of
`Type._from_java`.  Modelled from the spec: the engine's type objects are
opaque collaborators reached over the bridge; they are modelled by their
observable structure — canonical class name, element/key/value types,
struct fields — plus an `unknown` constructor carrying an arbitrary
canonical class name, for engine classes outside the mirrored set. -/
inductive JTypeRep where
| tIntR
| tLongR
| tFloatR
| tDoubleR
| tStringR
| tBooleanR
| tVariantR
| tAltAlleleR
| tGenotypeR
| tCallR
| tLocusR
| tIntervalR
| tArrayR (elem : JTypeRep)
| tSetR (elem : JTypeRep)
| tDictR (key : JTypeRep) (value : JTypeRep)
| tStructR (fields : List (String × JTypeRep))
| unknown (name : String)

/-- `jtype.getClass().getCanonicalName()`: Scala singleton objects carry a
trailing dollar. -/
def canonicalName : JTypeRep → String
| .tIntR => "is.hail.expr.TInt$"
| .tLongR => "is.hail.expr.TLong$"
| .tFloatR => "is.hail.expr.TFloat$"
| .tDoubleR => "is.hail.expr.TDouble$"
| .tStringR => "is.hail.expr.TString$"
| .tBooleanR => "is.hail.expr.TBoolean$"
| .tVariantR => "is.hail.expr.TVariant$"
| .tAltAlleleR => "is.hail.expr.TAltAllele$"
| .tGenotypeR => "is.hail.expr.TGenotype$"
| .tCallR => "is.hail.expr.TCall$"
| .tLocusR => "is.hail.expr.TLocus$"
| .tIntervalR => "is.hail.expr.TInterval$"
| .tArrayR _ => "is.hail.expr.TArray"
| .tSetR _ => "is.hail.expr.TSet"
| .tDictR _ _ => "is.hail.expr.TDict"
| .tStructR _ => "is.hail.expr.TStruct"
| .unknown s => s

/-- The module-level `__singletons__` dict of expr.py: engine class name
to mirror class, here represented by the mirror class's canonical type
tag (calling the class returns its unique instance, see `singletonCall`
below). -/
def singletonsMap : List (String × PyType) :=
  [("is.hail.expr.TInt$", .tInt),
   ("is.hail.expr.TLong$", .tLong),
   ("is.hail.expr.TFloat$", .tFloat),
   ("is.hail.expr.TDouble$", .tDouble),
   ("is.hail.expr.TBoolean$", .tBoolean),
   ("is.hail.expr.TString$", .tString),
   ("is.hail.expr.TVariant$", .tVariant),
   ("is.hail.expr.TAltAllele$", .tAltAllele),
   ("is.hail.expr.TLocus$", .tLocus),
   ("is.hail.expr.TGenotype$", .tGenotype),
   ("is.hail.expr.TCall$", .tCall),
   ("is.hail.expr.TInterval$", .tInterval)]

/-- The full fixed set of engine class names `Type._from_java` accepts:
the twelve singleton names plus the four parameterized ones. -/
def knownClassNames : List String :=
  (singletonsMap.map Prod.fst) ++
  ["is.hail.expr.TArray", "is.hail.expr.TSet", "is.hail.expr.TDict", "is.hail.expr.TStruct"]

/-- `jtype.elementType()`: present on engine TArray/TSet only; calling a
missing method fails on the bridge. -/
def elementTypeJ : JTypeRep → Except PyErr JTypeRep
| .tArrayR e => .ok e
| .tSetR e => .ok e
| _ => .error .py4jError

/-- `jtype.keyType()`. -/
def keyTypeJ : JTypeRep → Except PyErr JTypeRep
| .tDictR k _ => .ok k
| _ => .error .py4jError

/-- `jtype.valueType()`. -/
def valueTypeJ : JTypeRep → Except PyErr JTypeRep
| .tDictR _ v => .ok v
| _ => .error .py4jError

/-- `jtype.fields()` read through `iterableToArrayList`, giving each
field's `name()` and `typ()` (attributes elided). -/
def structFieldsJ : JTypeRep → Except PyErr (List (String × JTypeRep))
| .tStructR fs => .ok fs
| _ => .error .py4jError

mutual

/-- `Type._from_java` of expr.py.  The source dispatches on the canonical
class-name string: a `__singletons__` hit calls the mirror class (returning
its singleton instance), `is.hail.expr.TArray/TSet/TDict/TStruct` recurse
through `TArray._from_java` etc., and any other name raises TypeError.
Written here as a match on the structural constructor, which dispatches
identically because `canonicalName` maps each constructor to its fixed
string; the `unknown` case reproduces the string comparisons literally,
including the corner where an unknown engine class reuses a known name
(there the element/field accessors fail on the bridge). -/
def from_java : JTypeRep → Except PyErr PyType
| .tIntR => .ok .tInt
| .tLongR => .ok .tLong
| .tFloatR => .ok .tFloat
| .tDoubleR => .ok .tDouble
| .tStringR => .ok .tString
| .tBooleanR => .ok .tBoolean
| .tVariantR => .ok .tVariant
| .tAltAlleleR => .ok .tAltAllele
| .tGenotypeR => .ok .tGenotype
| .tCallR => .ok .tCall
| .tLocusR => .ok .tLocus
| .tIntervalR => .ok .tInterval
| .tArrayR e =>
  match from_java e with
  | .ok te => .ok (.tArray te)
  | .error err => .error err
| .tSetR e =>
  match from_java e with
  | .ok te => .ok (.tSet te)
  | .error err => .error err
| .tDictR k v =>
  match from_java k with
  | .ok tk =>
    match from_java v with
    | .ok tv => .ok (.tDict tk tv)
    | .error err => .error err
  | .error err => .error err
| .tStructR fs =>
  match from_javaFields fs with
  | .ok tfs => .ok (.tStruct tfs)
  | .error err => .error err
| .unknown s =>
  match assocLookup singletonsMap s with
  | some t => .ok t
  | Option.none =>
    if s = "is.hail.expr.TArray" then .error .py4jError
    else if s = "is.hail.expr.TSet" then .error .py4jError
    else if s = "is.hail.expr.TDict" then .error .py4jError
    else if s = "is.hail.expr.TStruct" then .error .py4jError
    else .error .typeError
termination_by j => sizeOf j

/-- The field walk of `TStruct._init_from_java`: mirrors each field's type
recursively. -/
def from_javaFields : List (String × JTypeRep) → Except PyErr (List (String × PyType))
| [] => .ok []
| (n, jt) :: fr =>
  match from_java jt with
  | .ok t =>
    match from_javaFields fr with
    | .ok ts => .ok ((n, t) :: ts)
    | .error err => .error err
  | .error err => .error err
termination_by fs => sizeOf fs

end

mutual

/-- The intended mirror correspondence stated by the claim ("the matching
Python mirror class"): each well-formed engine type object corresponds
structurally to one mirror tag.  This definition follows the claim's
words, for comparison with `from_java` (it maps the out-of-set `unknown`
constructor, on which the claim demands an error instead, to `tInt`
arbitrarily). -/
def mirrorOf : JTypeRep → PyType
| .tIntR => .tInt
| .tLongR => .tLong
| .tFloatR => .tFloat
| .tDoubleR => .tDouble
| .tStringR => .tString
| .tBooleanR => .tBoolean
| .tVariantR => .tVariant
| .tAltAlleleR => .tAltAllele
| .tGenotypeR => .tGenotype
| .tCallR => .tCall
| .tLocusR => .tLocus
| .tIntervalR => .tInterval
| .tArrayR e => .tArray (mirrorOf e)
| .tSetR e => .tSet (mirrorOf e)
| .tDictR k v => .tDict (mirrorOf k) (mirrorOf v)
| .tStructR fs => .tStruct (mirrorOfFields fs)
| .unknown _ => .tInt
termination_by j => sizeOf j

def mirrorOfFields : List (String × JTypeRep) → List (String × PyType)
| [] => []
| (n, jt) :: fr => (n, mirrorOf jt) :: mirrorOfFields fr
termination_by fs => sizeOf fs

end

mutual

/-- A well-formed engine type object: built only from the sixteen mirrored
engine classes (no `unknown` anywhere). -/
def wellFormedJ : JTypeRep → Bool
| .tArrayR e => wellFormedJ e
| .tSetR e => wellFormedJ e
| .tDictR k v => wellFormedJ k && wellFormedJ v
| .tStructR fs => wellFormedJFields fs
| .unknown _ => false
| _ => true
termination_by j => sizeOf j

def wellFormedJFields : List (String × JTypeRep) → Bool
| [] => true
| (_, jt) :: fr => wellFormedJ jt && wellFormedJFields fr
termination_by fs => sizeOf fs

end

/-- The classes carrying `__metaclass__ = SingletonType` in expr.py: the
twelve parameterless type tags. -/
inductive SingletonClass where
| tIntC
| tLongC
| tFloatC
| tDoubleC
| tStringC
| tBooleanC
| tVariantC
| tAltAlleleC
| tGenotypeC
| tCallC
| tLocusC
| tIntervalC
deriving DecidableEq

/-- The shared `Singleton._instances` dict plus the allocator of fresh
instance identities (object identity is modelled by a numeric id). -/
structure SingletonState where
  instances : List (SingletonClass × Nat)
  nextId : Nat

/-- Lookup in `Singleton._instances`. -/
def instLookup : List (SingletonClass × Nat) → SingletonClass → Option Nat
| [], _ => Option.none
| (c, i) :: r, cls => if c = cls then some i else instLookup r cls

/-- `Singleton.__call__`: `if cls not in cls._instances:
cls._instances[cls] = super().__call__(...)` — construct and cache a fresh
instance on the first call, then always return the cached instance. -/
def singletonCall (cls : SingletonClass) (s : SingletonState) : Nat × SingletonState :=
  match instLookup s.instances cls with
  | some i => (i, s)
  | Option.none => (s.nextId, ⟨(cls, s.nextId) :: s.instances, s.nextId + 1⟩)

/-- A remote-engine constructor invocation, with the float arguments that
cross the bridge (`Env.hail().stats.X.apply(float(...), ...)`). -/
inductive EngineCall where
| betaDist (a b : Rat)
| uniformDist (minVal maxVal : Rat)
| truncatedBetaDist (a b minVal maxVal : Rat)

/-- Is the value numeric for the `numeric` checker of `@typecheck_method`?
Modelled from the spec: the decorator (hail.typecheck, outside the three
source files) shallow-validates that each argument is a Python number
(int, long, float, or bool) before the body runs, raising TypeError
otherwise. -/
def isNumericPy : PyValue → Bool
| .int _ => true
| .long _ => true
| .float _ => true
| .bool _ => true
| _ => false

/-- Python `float(x)` on a numeric value. -/
def pyFloatOf : PyValue → Rat
| .int n => (n : Rat)
| .long n => (n : Rat)
| .float q => q
| .bool b => if b then 1 else 0
| _ => 0

/-- The stored attributes of a `BetaDist` (`self.a`, `self.b`). -/
structure BetaDist where
  a : PyValue
  b : PyValue

/-- The stored attributes of a `UniformDist`. -/
structure UniformDist where
  minVal : PyValue
  maxVal : PyValue

/-- The stored attributes of a `TruncatedBetaDist`. -/
structure TruncatedBetaDist where
  a : PyValue
  b : PyValue
  minVal : PyValue
  maxVal : PyValue

/-- `BetaDist.__init__`: after the decorator's numeric check, stores `a`
and `b` unchanged.  The second component is the list of remote-engine
calls the body performs — none (the body contains no `Env` access). -/
def BetaDist_init (a b : PyValue) : Except PyErr BetaDist × List EngineCall :=
  if isNumericPy a && isNumericPy b then (.ok ⟨a, b⟩, []) else (.error .typeError, [])

/-- `BetaDist._jrep`: the one remote constructor call, receiving the
stored parameters converted to float. -/
def BetaDist_jrep (d : BetaDist) : EngineCall :=
  .betaDist (pyFloatOf d.a) (pyFloatOf d.b)

/-- `UniformDist.__init__`: raises ValueError when `minVal >= maxVal`
(numeric comparison), otherwise stores both parameters unchanged; no
remote call either way. -/
def UniformDist_init (minVal maxVal : PyValue) : Except PyErr UniformDist × List EngineCall :=
  if isNumericPy minVal && isNumericPy maxVal then
    if pyFloatOf maxVal ≤ pyFloatOf minVal then
      (.error (.valueError "min must be less than max"), [])
    else (.ok ⟨minVal, maxVal⟩, [])
  else (.error .typeError, [])

/-- `UniformDist._jrep`. -/
def UniformDist_jrep (d : UniformDist) : EngineCall :=
  .uniformDist (pyFloatOf d.minVal) (pyFloatOf d.maxVal)

/-- `TruncatedBetaDist.__init__`: the three validations in source order
(`minVal >= maxVal`, then `minVal < 0`, then `maxVal > 1`), each raising
ValueError before any attribute is assigned; on success stores the four
parameters unchanged; no remote call either way. -/
def TruncatedBetaDist_init (a b minVal maxVal : PyValue) :
    Except PyErr TruncatedBetaDist × List EngineCall :=
  if isNumericPy a && isNumericPy b && isNumericPy minVal && isNumericPy maxVal then
    if pyFloatOf maxVal ≤ pyFloatOf minVal then
      (.error (.valueError "min must be less than max"), [])
    else if pyFloatOf minVal < 0 then
      (.error (.valueError "min cannot be less than 0"), [])
    else if 1 < pyFloatOf maxVal then
      (.error (.valueError "max cannot be greater than 1"), [])
    else (.ok ⟨a, b, minVal, maxVal⟩, [])
  else (.error .typeError, [])

/-- `TruncatedBetaDist._jrep`. -/
def TruncatedBetaDist_jrep (d : TruncatedBetaDist) : EngineCall :=
  .truncatedBetaDist (pyFloatOf d.a) (pyFloatOf d.b) (pyFloatOf d.minVal) (pyFloatOf d.maxVal)

/-- A Scala `Option` on the engine side of the bridge (java.py's `jsome`
and `jnone` build these; the bridge is modelled as faithful, so
`Some(x).get()` returns exactly `x`). -/
inductive JOption where
| jnoneO
| jsomeO (v : PyValue)

/-- `joption(x) = jsome(x) if x else jnone()` from java.py: the branch is
on Python truthiness. -/
def joption (v : PyValue) : JOption :=
  if pytruthy v then .jsomeO v else .jnoneO

/-- `from_option(x) = x.get() if x.isDefined() else None` from java.py. -/
def from_option : JOption → PyValue
| .jsomeO v => v
| .jnoneO => .none

/-- C10: `joption` returns the Scala None object exactly when its argument
is falsy (not only when it is None); `from_option (joption x)` returns `x`
for every truthy `x` and returns None for every falsy argument, including
the non-None values 0, 0.0, False and the empty string. -/
theorem joption_truthiness_roundtrip :
    (∀ v : PyValue, joption v = .jnoneO ↔ pytruthy v = false) ∧
    (∀ v : PyValue, pytruthy v = true → from_option (joption v) = v) ∧
    (∀ v : PyValue, pytruthy v = false → from_option (joption v) = .none) ∧
    from_option (joption (.int 0)) = .none ∧
    from_option (joption (.float 0)) = .none ∧
    from_option (joption (.bool false)) = .none ∧
    from_option (joption (.str "")) = .none := by
  refine ⟨fun v => ?_, fun v hv => ?_, fun v hv => ?_, ?_, ?_, ?_, ?_⟩
  · cases hv : pytruthy v <;> simp [joption, hv]
  · simp [joption, hv, from_option]
  · simp [joption, hv, from_option]
  · simp [joption, pytruthy, from_option]
  · simp [joption, pytruthy, from_option]
  · simp [joption, pytruthy, from_option]
  · simp [joption, pytruthy, from_option]

theorem joption_truthiness_roundtrip_witness :
    pytruthy (.int 7) = true ∧ from_option (joption (.int 7)) = .int 7 :=
  ⟨by simp [pytruthy], joption_truthiness_roundtrip.2.1 (.int 7) (by simp [pytruthy])⟩

/-- C9: the `Singleton` metaclass makes each parameterless tag class a
singleton: a constructor call on a class already in `_instances` returns
the cached instance and leaves the state unchanged; after any call the
class maps to the returned instance; and a call on a different class does
not disturb the cached instance.  Hence every call returns the identical
instance created by the first call. -/
theorem singleton_metaclass_canonical :
    ∀ (cls cls2 : SingletonClass) (s : SingletonState) (i : Nat),
      (instLookup s.instances cls = some i → singletonCall cls s = (i, s)) ∧
      instLookup ((singletonCall cls s).2).instances cls = some (singletonCall cls s).1 ∧
      (cls2 ≠ cls →
        instLookup ((singletonCall cls2 s).2).instances cls = instLookup s.instances cls) := by
  intro cls cls2 s i
  refine ⟨fun h => ?_, ?_, fun hne => ?_⟩
  · simp [singletonCall, h]
  · cases h : instLookup s.instances cls with
    | none => simp [singletonCall, h, instLookup]
    | some j => simp [singletonCall, h]
  · cases h : instLookup s.instances cls2 with
    | none => simp [singletonCall, h, instLookup, hne]
    | some j => simp [singletonCall, h]

theorem singleton_metaclass_canonical_witness :
    SingletonClass.tLongC ≠ SingletonClass.tIntC ∧
    instLookup ((singletonCall .tLongC ⟨[], 0⟩).2).instances .tIntC =
      instLookup (SingletonState.mk [] 0).instances .tIntC :=
  ⟨by decide,
   (singleton_metaclass_canonical .tIntC .tLongC ⟨[], 0⟩ 0).2.2 (by decide)⟩

/-- C8: `UniformDist.__init__` raises ValueError exactly when
`minVal >= maxVal`; `TruncatedBetaDist.__init__` raises ValueError exactly
when `minVal >= maxVal` or `minVal < 0` or `maxVal > 1`;
`BetaDist.__init__` accepts all numeric parameters without validation.
In the `Except` model an error case constructs no object at all, which is
faithful to the source: every `raise` there precedes the first attribute
assignment. -/
theorem dist_init_validation :
    ∀ a b minVal maxVal : PyValue,
      isNumericPy a = true → isNumericPy b = true →
      isNumericPy minVal = true → isNumericPy maxVal = true →
      (((UniformDist_init minVal maxVal).1 =
          .error (.valueError "min must be less than max")) ↔
        pyFloatOf maxVal ≤ pyFloatOf minVal) ∧
      ((∃ m, (TruncatedBetaDist_init a b minVal maxVal).1 = .error (.valueError m)) ↔
        (pyFloatOf maxVal ≤ pyFloatOf minVal ∨ pyFloatOf minVal < 0 ∨ 1 < pyFloatOf maxVal)) ∧
      (¬ pyFloatOf maxVal ≤ pyFloatOf minVal →
        (UniformDist_init minVal maxVal).1 = .ok ⟨minVal, maxVal⟩) ∧
      (BetaDist_init a b).1 = .ok ⟨a, b⟩ := by
  intro a b minVal maxVal ha hb hmin hmax
  refine ⟨?_, ?_, fun hlt => ?_, ?_⟩
  · by_cases hc : pyFloatOf maxVal ≤ pyFloatOf minVal <;>
      simp [UniformDist_init, ha, hb, hmin, hmax, hc]
  · by_cases h1 : pyFloatOf maxVal ≤ pyFloatOf minVal
    · simp [TruncatedBetaDist_init, ha, hb, hmin, hmax, h1]
    · by_cases h2 : pyFloatOf minVal < 0
      · simp [TruncatedBetaDist_init, ha, hb, hmin, hmax, h1, h2]
      · by_cases h3 : 1 < pyFloatOf maxVal <;>
          simp [TruncatedBetaDist_init, ha, hb, hmin, hmax, h1, h2, h3]
  · simp [UniformDist_init, ha, hb, hmin, hmax, hlt]
  · simp [BetaDist_init, ha, hb]

theorem dist_init_validation_witness :
    isNumericPy (.float (1/2)) = true ∧ isNumericPy (.int 1) = true ∧
    isNumericPy (.int 0) = true ∧
    ¬ pyFloatOf (.int 1) ≤ pyFloatOf (.int 0) ∧
    (UniformDist_init (.int 0) (.int 1)).1 = .ok ⟨.int 0, .int 1⟩ := by
  refine ⟨by simp [isNumericPy], by simp [isNumericPy], by simp [isNumericPy], ?_, ?_⟩
  · simp [pyFloatOf]
  · exact (dist_init_validation (.float (1/2)) (.float (1/2)) (.int 0) (.int 1)
      (by simp [isNumericPy]) (by simp [isNumericPy]) (by simp [isNumericPy])
      (by simp [isNumericPy])).2.2.1 (by simp [pyFloatOf])

/-- C3: constructing a distribution holder performs no remote-engine call
(the engine-call trace of each `__init__` body is empty) and stores the
supplied parameters unchanged as attributes; `_jrep()` alone performs the
remote constructor invocation, receiving exactly the stored parameters
converted to float. -/
theorem dist_holders_lazy :
    ∀ a b minVal maxVal : PyValue,
      isNumericPy a = true → isNumericPy b = true →
      isNumericPy minVal = true → isNumericPy maxVal = true →
      (BetaDist_init a b = (.ok ⟨a, b⟩, []) ∧
        BetaDist_jrep ⟨a, b⟩ = .betaDist (pyFloatOf a) (pyFloatOf b)) ∧
      ((UniformDist_init minVal maxVal).2 = [] ∧
        (pyFloatOf minVal < pyFloatOf maxVal →
          UniformDist_init minVal maxVal = (.ok ⟨minVal, maxVal⟩, [])) ∧
        UniformDist_jrep ⟨minVal, maxVal⟩ =
          .uniformDist (pyFloatOf minVal) (pyFloatOf maxVal)) ∧
      ((TruncatedBetaDist_init a b minVal maxVal).2 = [] ∧
        (pyFloatOf minVal < pyFloatOf maxVal → 0 ≤ pyFloatOf minVal →
          pyFloatOf maxVal ≤ 1 →
          TruncatedBetaDist_init a b minVal maxVal = (.ok ⟨a, b, minVal, maxVal⟩, [])) ∧
        TruncatedBetaDist_jrep ⟨a, b, minVal, maxVal⟩ =
          .truncatedBetaDist (pyFloatOf a) (pyFloatOf b)
            (pyFloatOf minVal) (pyFloatOf maxVal)) := by
  intro a b minVal maxVal ha hb hmin hmax
  refine ⟨⟨?_, rfl⟩, ⟨?_, fun hlt => ?_, rfl⟩, ⟨?_, fun hlt h0 h1 => ?_, rfl⟩⟩
  · simp [BetaDist_init, ha, hb]
  · by_cases hc : pyFloatOf maxVal ≤ pyFloatOf minVal <;>
      simp [UniformDist_init, ha, hb, hmin, hmax, hc]
  · simp [UniformDist_init, hmin, hmax, not_le.mpr hlt]
  · by_cases h1 : pyFloatOf maxVal ≤ pyFloatOf minVal
    · simp [TruncatedBetaDist_init, ha, hb, hmin, hmax, h1]
    · by_cases h2 : pyFloatOf minVal < 0
      · simp [TruncatedBetaDist_init, ha, hb, hmin, hmax, h1, h2]
      · by_cases h3 : 1 < pyFloatOf maxVal <;>
          simp [TruncatedBetaDist_init, ha, hb, hmin, hmax, h1, h2, h3]
  · simp [TruncatedBetaDist_init, ha, hb, hmin, hmax, not_le.mpr hlt,
      not_lt.mpr h0, not_lt.mpr h1]

theorem dist_holders_lazy_witness :
    isNumericPy (.int 2) = true ∧
    BetaDist_init (.int 2) (.int 3) = (.ok ⟨.int 2, .int 3⟩, []) ∧
    BetaDist_jrep ⟨.int 2, .int 3⟩ = .betaDist 2 3 := by
  refine ⟨by simp [isNumericPy], ?_⟩
  have h := (dist_holders_lazy (.int 2) (.int 3) (.int 0) (.int 1)
    (by simp [isNumericPy]) (by simp [isNumericPy]) (by simp [isNumericPy])
    (by simp [isNumericPy])).1
  refine ⟨h.1, ?_⟩
  have := h.2
  simpa [pyFloatOf] using this

/-- State-passing view of `_typecheck`: the result together with the
receiver after the call.  The method body contains no assignment to
`self`, so the receiver — and with it every field (`_jtype`,
`element_type`, `key_type`, `value_type`, `fields`), all determined by
the tag — is returned unchanged. -/
def typecheckS (t : PyType) (v : PyValue) : Except PyErr Unit × PyType :=
  (typecheck t v, t)

/-- State-passing view of `_convert_to_j` (no assignment to `self` in any
subclass body). -/
def convert_to_jS (t : PyType) (v : PyValue) : Except PyErr JValue × PyType :=
  (convert_to_j t v, t)

/-- State-passing view of `_convert_to_py` (no assignment to `self` in
any subclass body). -/
def convert_to_pyS (t : PyType) (j : JValue) : Except PyErr PyValue × PyType :=
  (convert_to_py t j, t)

/-- C7: the type-tag operations are pure marshaling glue: `_typecheck`,
`_convert_to_j` and `_convert_to_py` leave the receiver — hence every
field of the Type object — unchanged, and two calls on equal inputs
produce the same outcome. -/
theorem type_ops_pure :
    ∀ (t t2 : PyType) (v v2 : PyValue) (j j2 : JValue),
      (typecheckS t v).2 = t ∧ (convert_to_jS t v).2 = t ∧ (convert_to_pyS t j).2 = t ∧
      (t2 = t → v2 = v → typecheck t2 v2 = typecheck t v) ∧
      (t2 = t → v2 = v → convert_to_j t2 v2 = convert_to_j t v) ∧
      (t2 = t → j2 = j → convert_to_py t2 j2 = convert_to_py t j) := by
  intro t t2 v v2 j j2
  exact ⟨rfl, rfl, rfl,
    fun h1 h2 => by rw [h1, h2],
    fun h1 h2 => by rw [h1, h2],
    fun h1 h2 => by rw [h1, h2]⟩

theorem type_ops_pure_witness :
    (typecheckS .tInt (.int 1)).2 = .tInt ∧
    typecheck .tInt (.int 1) = typecheck .tInt (.int 1) :=
  ⟨(type_ops_pure .tInt .tInt (.int 1) (.int 1) (.prim .none) (.prim .none)).1,
   (type_ops_pure .tInt .tInt (.int 1) (.int 1) (.prim .none) (.prim .none)).2.2.2.1 rfl rfl⟩

/-- The instance relation named by claim C1, in the claim's words: int for
TInt; int or long for TLong; float for TFloat and TDouble; str or unicode
for TString; bool for TBoolean — with Python 2 `isinstance` semantics
(`bool` is a subclass of `int`).  Written independently of `typecheck`
for comparison with it. -/
def claimPrimInstance : PyType → PyValue → Bool
| .tInt, .int _ => true
| .tInt, .bool _ => true
| .tLong, .int _ => true
| .tLong, .long _ => true
| .tLong, .bool _ => true
| .tFloat, .float _ => true
| .tDouble, .float _ => true
| .tString, .str _ => true
| .tString, .unicode _ => true
| .tBoolean, .bool _ => true
| _, _ => false

/-- C1 (amended): for each primitive tag, `_typecheck v` raises
TypeCheckError exactly when `v` is truthy and not an instance of the
corresponding Python type, and returns normally otherwise.  (The source
guards with `if annotation`, i.e. truthiness, not `is not None`.) -/
theorem typecheck_primitive_truthy :
    ∀ v : PyValue,
      typecheck .tInt v =
        (if pytruthy v && !claimPrimInstance .tInt v then .error .typeCheckError else .ok ()) ∧
      typecheck .tLong v =
        (if pytruthy v && !claimPrimInstance .tLong v then .error .typeCheckError else .ok ()) ∧
      typecheck .tFloat v =
        (if pytruthy v && !claimPrimInstance .tFloat v then .error .typeCheckError else .ok ()) ∧
      typecheck .tDouble v =
        (if pytruthy v && !claimPrimInstance .tDouble v then .error .typeCheckError else .ok ()) ∧
      typecheck .tString v =
        (if pytruthy v && !claimPrimInstance .tString v then .error .typeCheckError else .ok ()) ∧
      typecheck .tBoolean v =
        (if pytruthy v && !claimPrimInstance .tBoolean v then .error .typeCheckError else .ok ()) := by
  intro v
  refine ⟨?_, ?_, ?_, ?_, ?_, ?_⟩ <;>
    cases v <;>
      simp [typecheck, claimPrimInstance, isInstInt, isInstLong, isInstFloat,
        isInstStr, isInstUnicode, isInstBool]

/-- C1, counterexample to the claim as stated: the empty string is not
None and is not an instance of int, yet `TInt()._typecheck("")` returns
normally (the empty string is falsy, and the source checks truthiness). -/
theorem typecheck_primitive_counterexample :
    typecheck .tInt (.str "") = .ok () ∧
    PyValue.str "" ≠ PyValue.none ∧
    claimPrimInstance .tInt (.str "") = false := by
  refine ⟨?_, ?_, ?_⟩
  · simp [typecheck, pytruthy]
  · simp
  · simp [claimPrimInstance]

/-- The outermost Python type of a value, as a plain index: what a shallow
isinstance-style check may inspect (besides truthiness). -/
def outerCtorIdx : PyValue → Nat
| .none => 0
| .int _ => 1
| .long _ => 2
| .float _ => 3
| .bool _ => 4
| .str _ => 5
| .unicode _ => 6
| .list _ => 7
| .set _ => 8
| .dict _ => 9
| .struct _ => 10
| .variant _ => 11
| .altallele _ => 12
| .genotype _ => 13
| .call _ => 14
| .locus _ => 15
| .interval _ => 16

/-- Is the tag one of the twelve leaf (non-container) tags? -/
def isLeafTag : PyType → Bool
| .tArray _ => false
| .tSet _ => false
| .tDict _ _ => false
| .tStruct _ => false
| _ => true

/-- Which outermost types count as instances for each leaf tag (the
isinstance table of the source, keyed by `outerCtorIdx`). -/
def leafInstIdx : PyType → Nat → Bool
| .tInt, i => i == 1 || i == 4
| .tLong, i => i == 1 || i == 2 || i == 4
| .tFloat, i => i == 3
| .tDouble, i => i == 3
| .tString, i => i == 5 || i == 6
| .tBoolean, i => i == 4
| .tVariant, i => i == 11
| .tAltAllele, i => i == 12
| .tGenotype, i => i == 13
| .tCall, i => i == 14
| .tLocus, i => i == 15
| .tInterval, i => i == 16
| _, _ => false

/-- The factored form of a shallow check: a function of the value's
truthiness and outermost type only. -/
def leafCheckModel (t : PyType) (truthy : Bool) (i : Nat) : Except PyErr Unit :=
  if truthy && !leafInstIdx t i then .error .typeCheckError else .ok ()

theorem tcElemsOk :
    ∀ (e : PyType) (xs : List PyValue),
      (match typecheckElems e xs with
       | .ok _ => true
       | .error _ => false) = xs.all (fun x => tcOk e x) := by
  intro e xs
  induction xs with
  | nil => simp [typecheckElems]
  | cons x r ih =>
    cases h : typecheck e x with
    | ok u => simp [typecheckElems, h, ih, tcOk]
    | error err => simp [typecheckElems, h, tcOk]

theorem tcPairsOk :
    ∀ (kt vt : PyType) (ps : List (PyValue × PyValue)),
      (match typecheckPairs kt vt ps with
       | .ok _ => true
       | .error _ => false) = ps.all (fun p => tcOk kt p.1 && tcOk vt p.2) := by
  intro kt vt ps
  induction ps with
  | nil => simp [typecheckPairs]
  | cons p r ih =>
    obtain ⟨k, v⟩ := p
    cases hk : typecheck kt k with
    | ok u =>
      cases hv : typecheck vt v with
      | ok u2 => simp [typecheckPairs, hk, hv, ih, tcOk]
      | error err => simp [typecheckPairs, hk, hv, tcOk]
    | error err => simp [typecheckPairs, hk, tcOk]

theorem tcFieldsOk :
    ∀ (fl : List (String × PyType)) (fs : List (String × PyValue)),
      (match typecheckFields fl fs with
       | .ok _ => true
       | .error _ => false) =
        fl.all (fun f =>
          match assocLookup fs f.1 with
          | some fv => tcOk f.2 fv
          | Option.none => false) := by
  intro fl fs
  induction fl with
  | nil => simp [typecheckFields]
  | cons f fr ih =>
    obtain ⟨n, t⟩ := f
    cases hl : assocLookup fs n with
    | none => simp [typecheckFields, hl]
    | some fv =>
      cases ht : typecheck t fv with
      | ok u => simp [typecheckFields, hl, ht, ih, tcOk]
      | error err => simp [typecheckFields, hl, ht, tcOk]

/-- C2 (amended): the twelve leaf tags' `_typecheck` is a shallow
isinstance-style assertion — its outcome factors through the value's
truthiness and outermost Python type alone — while the container tags
(TArray, TSet, TDict, TStruct) additionally typecheck every element,
entry and declared field of the supplied value recursively. -/
theorem typecheck_shallow_and_containers :
    (∀ t : PyType, isLeafTag t = true →
      ∀ v : PyValue, typecheck t v = leafCheckModel t (pytruthy v) (outerCtorIdx v)) ∧
    (∀ (e : PyType) (xs : List PyValue),
      tcOk (.tArray e) (.list xs) = xs.all (fun x => tcOk e x)) ∧
    (∀ (e : PyType) (xs : List PyValue),
      tcOk (.tSet e) (.set xs) = xs.all (fun x => tcOk e x)) ∧
    (∀ (kt vt : PyType) (ps : List (PyValue × PyValue)),
      tcOk (.tDict kt vt) (.dict ps) = ps.all (fun p => tcOk kt p.1 && tcOk vt p.2)) ∧
    (∀ (fl : List (String × PyType)) (fs : List (String × PyValue)),
      tcOk (.tStruct fl) (.struct fs) =
        fl.all (fun f =>
          match assocLookup fs f.1 with
          | some fv => tcOk f.2 fv
          | Option.none => false)) := by
  refine ⟨fun t ht v => ?_, fun e xs => ?_, fun e xs => ?_, fun kt vt ps => ?_,
    fun fl fs => ?_⟩
  · cases t <;> simp [isLeafTag] at ht <;>
      cases v <;>
        simp [typecheck, leafCheckModel, outerCtorIdx, leafInstIdx,
          isInstInt, isInstLong, isInstFloat, isInstStr, isInstUnicode, isInstBool,
          isInstVariant, isInstAltAllele, isInstGenotype, isInstCall,
          isInstLocus, isInstInterval]
  · rcases xs with _ | ⟨x, r⟩
    · simp [tcOk, typecheck, pytruthy, typecheckElems]
    · simp only [tcOk, typecheck, pytruthy, List.isEmpty_cons, Bool.not_false, if_true]
      exact tcElemsOk e (x :: r)
  · rcases xs with _ | ⟨x, r⟩
    · simp [tcOk, typecheck, pytruthy, typecheckElems]
    · simp only [tcOk, typecheck, pytruthy, List.isEmpty_cons, Bool.not_false, if_true]
      exact tcElemsOk e (x :: r)
  · rcases ps with _ | ⟨p, r⟩
    · simp [tcOk, typecheck, pytruthy, typecheckPairs]
    · simp only [tcOk, typecheck, pytruthy, List.isEmpty_cons, Bool.not_false, if_true]
      exact tcPairsOk kt vt (p :: r)
  · simp only [tcOk, typecheck, pytruthy, if_true]
    exact tcFieldsOk fl fs

theorem typecheck_shallow_and_containers_witness :
    isLeafTag .tInt = true ∧
    typecheck .tInt (.list [.str "x"]) =
      leafCheckModel .tInt (pytruthy (.list [.str "x"])) (outerCtorIdx (.list [.str "x"])) :=
  ⟨by simp [isLeafTag],
   typecheck_shallow_and_containers.1 .tInt (by simp [isLeafTag]) (.list [.str "x"])⟩

/-- C2, counterexample to the claim as stated: `TArray(TInt())._typecheck`
examines the elements of the supplied list — two lists of the same
outermost type and truthiness give different outcomes depending on their
elements. -/
theorem typecheck_shallow_counterexample :
    typecheck (.tArray .tInt) (.list [.int 1]) = .ok () ∧
    typecheck (.tArray .tInt) (.list [.str "a"]) = .error .typeCheckError := by
  constructor
  · simp [typecheck, typecheckElems, pytruthy, isInstInt]
  · simp [typecheck, typecheckElems, pytruthy, isInstInt]

mutual

theorem from_java_wf : (j : JTypeRep) → wellFormedJ j = true →
    from_java j = .ok (mirrorOf j)
| .tIntR, _ => by simp [from_java, mirrorOf]
| .tLongR, _ => by simp [from_java, mirrorOf]
| .tFloatR, _ => by simp [from_java, mirrorOf]
| .tDoubleR, _ => by simp [from_java, mirrorOf]
| .tStringR, _ => by simp [from_java, mirrorOf]
| .tBooleanR, _ => by simp [from_java, mirrorOf]
| .tVariantR, _ => by simp [from_java, mirrorOf]
| .tAltAlleleR, _ => by simp [from_java, mirrorOf]
| .tGenotypeR, _ => by simp [from_java, mirrorOf]
| .tCallR, _ => by simp [from_java, mirrorOf]
| .tLocusR, _ => by simp [from_java, mirrorOf]
| .tIntervalR, _ => by simp [from_java, mirrorOf]
| .tArrayR e, h => by
  have he := from_java_wf e (by simpa [wellFormedJ] using h)
  simp [from_java, mirrorOf, he]
| .tSetR e, h => by
  have he := from_java_wf e (by simpa [wellFormedJ] using h)
  simp [from_java, mirrorOf, he]
| .tDictR k v, h => by
  have hkv : wellFormedJ k = true ∧ wellFormedJ v = true := by
    simpa [wellFormedJ, Bool.and_eq_true] using h
  have hk := from_java_wf k hkv.1
  have hv := from_java_wf v hkv.2
  simp [from_java, mirrorOf, hk, hv]
| .tStructR fs, h => by
  have hf := from_java_wfFields fs (by simpa [wellFormedJ] using h)
  simp [from_java, mirrorOf, hf]
| .unknown s, h => by simp [wellFormedJ] at h
termination_by j => sizeOf j

theorem from_java_wfFields : (fs : List (String × JTypeRep)) →
    wellFormedJFields fs = true →
    from_javaFields fs = .ok (mirrorOfFields fs)
| [], _ => by simp [from_javaFields, mirrorOfFields]
| (n, jt) :: fr, h => by
  have hp : wellFormedJ jt = true ∧ wellFormedJFields fr = true := by
    simpa [wellFormedJFields, Bool.and_eq_true] using h
  have h1 := from_java_wf jt hp.1
  have h2 := from_java_wfFields fr hp.2
  simp [from_javaFields, mirrorOfFields, h1, h2]
termination_by fs => sizeOf fs

end

/-- C5: `Type._from_java` returns the matching Python mirror class's
instance for every engine type built from the fixed set of class names
(the twelve `__singletons__` entries plus TArray, TSet, TDict, TStruct),
and raises TypeError for every engine class name outside that fixed
set. -/
theorem from_java_fixed_set :
    (∀ j : JTypeRep, wellFormedJ j = true → from_java j = .ok (mirrorOf j)) ∧
    (∀ s : String, knownClassNames.contains s = false →
      from_java (.unknown s) = .error .typeError) := by
  constructor
  · exact from_java_wf
  · intro s hs
    have hmem : ¬ s ∈ knownClassNames := by
      intro hm
      simp [List.elem_eq_mem, hm] at hs
    simp only [knownClassNames, singletonsMap, List.map, List.mem_append,
      List.mem_cons, List.not_mem_nil, or_false, not_or] at hmem
    obtain ⟨⟨h1, h2, h3, h4, h5, h6, h7, h8, h9, h10, h11, h12⟩, h13, h14, h15, h16⟩ := hmem
    simp [from_java, singletonsMap, assocLookup,
      Ne.symm h1, Ne.symm h2, Ne.symm h3, Ne.symm h4, Ne.symm h5, Ne.symm h6,
      Ne.symm h7, Ne.symm h8, Ne.symm h9, Ne.symm h10, Ne.symm h11, Ne.symm h12,
      h13, h14, h15, h16]

theorem from_java_fixed_set_witness :
    wellFormedJ (.tArrayR .tIntR) = true ∧
    from_java (.tArrayR .tIntR) = .ok (mirrorOf (.tArrayR .tIntR)) ∧
    knownClassNames.contains "is.hail.expr.TFancy" = false ∧
    from_java (.unknown "is.hail.expr.TFancy") = .error .typeError := by
  refine ⟨by simp [wellFormedJ], ?_, by simp [knownClassNames, singletonsMap], ?_⟩
  · exact from_java_fixed_set.1 (.tArrayR .tIntR) (by simp [wellFormedJ])
  · exact from_java_fixed_set.2 "is.hail.expr.TFancy"
      (by simp [knownClassNames, singletonsMap])

mutual

theorem pyEq_refl : (v : PyValue) → pyEq v v = true
| .none => by simp [pyEq]
| .int n => by simp [pyEq]
| .long n => by simp [pyEq]
| .float q => by simp [pyEq]
| .bool b => by simp [pyEq]
| .str s => by simp [pyEq]
| .unicode s => by simp [pyEq]
| .list xs => by simp [pyEq, pyEqList_refl xs]
| .set xs => by simp [pyEq, pyEqList_refl xs]
| .dict ps => by simp [pyEq, pyEqPairs_refl ps]
| .struct fs => by simp [pyEq, pyEqFields_refl fs]
| .variant i => by simp [pyEq]
| .altallele i => by simp [pyEq]
| .genotype i => by simp [pyEq]
| .call i => by simp [pyEq]
| .locus i => by simp [pyEq]
| .interval i => by simp [pyEq]
termination_by v => sizeOf v

theorem pyEqList_refl : (xs : List PyValue) → pyEqList xs xs = true
| [] => by simp [pyEqList]
| x :: r => by simp [pyEqList, pyEq_refl x, pyEqList_refl r]
termination_by xs => sizeOf xs

theorem pyEqPairs_refl : (ps : List (PyValue × PyValue)) → pyEqPairs ps ps = true
| [] => by simp [pyEqPairs]
| (k, v) :: r => by simp [pyEqPairs, pyEq_refl k, pyEq_refl v, pyEqPairs_refl r]
termination_by ps => sizeOf ps

theorem pyEqFields_refl : (fs : List (String × PyValue)) → pyEqFields fs fs = true
| [] => by simp [pyEqFields]
| (n, v) :: r => by simp [pyEqFields, pyEq_refl v, pyEqFields_refl r]
termination_by fs => sizeOf fs

end

theorem assocLookup_isSome_of_mem {α : Type} :
    ∀ (l : List (String × α)) (m : String) (a : α),
      (m, a) ∈ l → (assocLookup l m).isSome = true := by
  intro l
  induction l with
  | nil => intro m a h; simp at h
  | cons p r ih =>
    intro m a h
    obtain ⟨k, b⟩ := p
    by_cases hk : k = m
    · simp [assocLookup, hk]
    · rcases List.mem_cons.mp h with h1 | h2
      · exact absurd (congrArg Prod.fst h1).symm hk
      · simpa [assocLookup, hk] using ih m a h2

/-- The index walk of `TStruct._convert_to_py` equals the aligned walk on
the remaining row elements. -/
theorem convert_to_pyFieldsIdx_zip :
    ∀ (fl : List (String × PyType)) (i : Nat) (full : List JValue),
      convert_to_pyFieldsIdx fl i (.jrow full) = convert_to_pyFieldsZip fl (full.drop i) := by
  intro fl
  induction fl with
  | nil => intro i full; simp [convert_to_pyFieldsIdx, convert_to_pyFieldsZip]
  | cons f fr ih =>
    intro i full
    obtain ⟨n, t⟩ := f
    cases hd : full.drop i with
    | nil =>
      have hlen := List.drop_eq_nil_iff.mp hd
      have hge : full[i]? = Option.none := List.getElem?_eq_none (by omega)
      simp [convert_to_pyFieldsIdx, convert_to_pyFieldsZip, rowGet, hge]
    | cons x xs =>
      have hx : full[i]? = some x := by
        have h0 : (full.drop i)[0]? = some x := by rw [hd]; simp
        rwa [List.getElem?_drop, Nat.add_zero] at h0
      have hrest : full.drop (i + 1) = xs := by
        rw [← List.drop_drop, hd]
        simp
      have ihr := ih (i + 1) full
      rw [hrest] at ihr
      simp only [convert_to_pyFieldsIdx, convert_to_pyFieldsZip, rowGet, hx]
      cases hc : convert_to_py t x with
      | ok y => simp [hc, ihr]
      | error err => simp [hc]

set_option maxHeartbeats 2000000 in
mutual

/-- Core marshaling lemma: on tags free of TFloat, every strictly
conforming value typechecks, converts to the engine representation, and
converts back to a Python-equal value. -/
theorem rt : (T : PyType) → (v : PyValue) → noTFloat T = true → strict T v = true →
    typecheck T v = .ok () ∧
    ∃ j w, convert_to_j T v = .ok j ∧ convert_to_py T j = .ok w ∧ pyEq w v = true
| .tInt, v, _, hs => by
  cases v <;> try simp [strict] at hs
  case none =>
    exact ⟨by simp [typecheck, pytruthy], .prim .none, .none,
      by simp [convert_to_j, pytruthy], by simp [convert_to_py, pyOfJ], by simp [pyEq]⟩
  case int n =>
    refine ⟨by simp [typecheck, isInstInt], ?_⟩
    by_cases hn : n = 0
    · subst hn
      exact ⟨.prim (.int 0), .int 0, by simp [convert_to_j, pytruthy],
        by simp [convert_to_py, pyOfJ], by simp [pyEq]⟩
    · exact ⟨.jint n, .int n, by simp [convert_to_j, pytruthy, hn, makeInt],
        by simp [convert_to_py, pyOfJ], by simp [pyEq]⟩
| .tLong, v, _, hs => by
  cases v <;> try simp [strict] at hs
  case none =>
    exact ⟨by simp [typecheck, pytruthy], .prim .none, .none,
      by simp [convert_to_j, pytruthy], by simp [convert_to_py, pyOfJ], by simp [pyEq]⟩
  case int n =>
    refine ⟨by simp [typecheck, isInstInt], ?_⟩
    by_cases hn : n = 0
    · subst hn
      exact ⟨.prim (.int 0), .int 0, by simp [convert_to_j, pytruthy],
        by simp [convert_to_py, pyOfJ], by simp [pyEq]⟩
    · exact ⟨.jlong n, .long n, by simp [convert_to_j, pytruthy, hn, makeLong],
        by simp [convert_to_py, pyOfJ], by simp [pyEq]⟩
  case long n =>
    refine ⟨by simp [typecheck, isInstLong], ?_⟩
    by_cases hn : n = 0
    · subst hn
      exact ⟨.prim (.long 0), .long 0, by simp [convert_to_j, pytruthy],
        by simp [convert_to_py, pyOfJ], by simp [pyEq]⟩
    · exact ⟨.jlong n, .long n, by simp [convert_to_j, pytruthy, hn, makeLong],
        by simp [convert_to_py, pyOfJ], by simp [pyEq]⟩
| .tFloat, v, hf, _ => by simp [noTFloat] at hf
| .tDouble, v, _, hs => by
  cases v <;> try simp [strict] at hs
  case none =>
    exact ⟨by simp [typecheck, pytruthy], .prim .none, .none,
      by simp [convert_to_j, pytruthy], by simp [convert_to_py, pyOfJ], by simp [pyEq]⟩
  case float q =>
    refine ⟨by simp [typecheck, isInstFloat], ?_⟩
    by_cases hq : q = 0
    · subst hq
      exact ⟨.prim (.float 0), .float 0, by simp [convert_to_j, pytruthy],
        by simp [convert_to_py, pyOfJ], by simp [pyEq]⟩
    · exact ⟨.jdouble q, .float q, by simp [convert_to_j, pytruthy, hq, makeDouble],
        by simp [convert_to_py, pyOfJ], by simp [pyEq]⟩
| .tString, v, _, hs => by
  cases v <;> try simp [strict] at hs
  case none =>
    exact ⟨by simp [typecheck, pytruthy], .prim .none, .none,
      by simp [convert_to_j], by simp [convert_to_py, pyOfJ], by simp [pyEq]⟩
  case str s =>
    exact ⟨by simp [typecheck, isInstStr], .prim (.str s), .str s,
      by simp [convert_to_j], by simp [convert_to_py, pyOfJ], by simp [pyEq]⟩
  case unicode s =>
    exact ⟨by simp [typecheck, isInstUnicode], .prim (.unicode s), .unicode s,
      by simp [convert_to_j], by simp [convert_to_py, pyOfJ], by simp [pyEq]⟩
| .tBoolean, v, _, hs => by
  cases v <;> try simp [strict] at hs
  case none =>
    exact ⟨by simp [typecheck, pytruthy], .prim .none, .none,
      by simp [convert_to_j], by simp [convert_to_py, pyOfJ], by simp [pyEq]⟩
  case bool b =>
    exact ⟨by simp [typecheck, isInstBool], .prim (.bool b), .bool b,
      by simp [convert_to_j], by simp [convert_to_py, pyOfJ], by simp [pyEq]⟩
| .tArray e, v, hf, hs => by
  cases v <;> try simp [strict] at hs
  case none =>
    exact ⟨by simp [typecheck, pytruthy], .prim .none, .none,
      by simp [convert_to_j], by simp [convert_to_py, jtruthy, pytruthy, pyOfJ],
      by simp [pyEq]⟩
  case list xs =>
    have hf2 : noTFloat e = true := by simpa [noTFloat] using hf
    obtain ⟨htc, js, ws, hcj, hcp, heq⟩ := rtList e xs hf2 hs
    refine ⟨?_, .jseq js, .list ws, ?_, ?_, ?_⟩
    · cases hxs : xs.isEmpty <;> simp [typecheck, pytruthy, hxs, htc]
    · simp [convert_to_j, pyIter, hcj]
    · simp [convert_to_py, jtruthy, jIterToList, hcp]
    · simp [pyEq, heq]
| .tSet e, v, hf, hs => by
  cases v <;> try simp [strict] at hs
  case none =>
    exact ⟨by simp [typecheck, pytruthy], .prim .none, .none,
      by simp [convert_to_j], by simp [convert_to_py, jtruthy, pytruthy, pyOfJ],
      by simp [pyEq]⟩
  case set xs =>
    have hf2 : noTFloat e = true := by simpa [noTFloat] using hf
    obtain ⟨htc, js, ws, hcj, hcp, heq⟩ := rtList e xs hf2 hs
    refine ⟨?_, .jset js, .set ws, ?_, ?_, ?_⟩
    · cases hxs : xs.isEmpty <;> simp [typecheck, pytruthy, hxs, htc]
    · simp [convert_to_j, pyIter, hcj]
    · simp [convert_to_py, jtruthy, jIterToList, hcp]
    · simp [pyEq, heq]
| .tDict kt vt, v, hf, hs => by
  cases v <;> try simp [strict] at hs
  case none =>
    exact ⟨by simp [typecheck, pytruthy], .prim .none, .none,
      by simp [convert_to_j], by simp [convert_to_py, jtruthy, pytruthy, pyOfJ],
      by simp [pyEq]⟩
  case dict ps =>
    have hf2 : noTFloat kt = true ∧ noTFloat vt = true := by
      simpa [noTFloat, Bool.and_eq_true] using hf
    obtain ⟨htc, qs, rs, hcj, hcp, heq⟩ := rtPairs kt vt ps hf2.1 hf2.2 hs
    refine ⟨?_, .jmap qs, .dict rs, ?_, ?_, ?_⟩
    · cases hps : ps.isEmpty <;> simp [typecheck, pytruthy, hps, htc]
    · simp [convert_to_j, iterItems, hcj]
    · simp [convert_to_py, jtruthy, jMapToPairs, hcp]
    · simp [pyEq, heq]
| .tStruct fl, v, hf, hs => by
  cases v <;> try simp [strict] at hs
  case none =>
    exact ⟨by simp [typecheck, pytruthy], .prim .none, .none,
      by simp [convert_to_j], by simp [convert_to_py, jtruthy, pytruthy, pyOfJ],
      by simp [pyEq]⟩
  case struct fs =>
    have hf2 : noTFloatFields fl = true := by simpa [noTFloat] using hf
    obtain ⟨htc, js, hcj, ws, hcp, heq⟩ :=
      rtFields fl fs fs hf2 hs (fun m tm _ => rfl)
    refine ⟨?_, .jrow js, .struct ws, ?_, ?_, ?_⟩
    · simp [typecheck, pytruthy, htc]
    · simp [convert_to_j, hcj]
    · have hzip := convert_to_pyFieldsIdx_zip fl 0 js
      simp only [List.drop_zero] at hzip
      simp [convert_to_py, jtruthy, hzip, hcp]
    · simp [pyEq, heq]
| .tVariant, v, _, hs => by
  cases v <;> try simp [strict] at hs
  case none =>
    exact ⟨by simp [typecheck, pytruthy], .prim .none, .none,
      by simp [convert_to_j], by simp [convert_to_py, jtruthy, pytruthy, pyOfJ],
      by simp [pyEq]⟩
  case variant i =>
    exact ⟨by simp [typecheck, isInstVariant], .jvariant i, .variant i,
      by simp [convert_to_j, jrepOf], by simp [convert_to_py, jtruthy], by simp [pyEq]⟩
| .tAltAllele, v, _, hs => by
  cases v <;> try simp [strict] at hs
  case none =>
    exact ⟨by simp [typecheck, pytruthy], .prim .none, .none,
      by simp [convert_to_j], by simp [convert_to_py, jtruthy, pytruthy, pyOfJ],
      by simp [pyEq]⟩
  case altallele i =>
    exact ⟨by simp [typecheck, isInstAltAllele], .jaltallele i, .altallele i,
      by simp [convert_to_j, jrepOf], by simp [convert_to_py, jtruthy], by simp [pyEq]⟩
| .tGenotype, v, _, hs => by
  cases v <;> try simp [strict] at hs
  case none =>
    exact ⟨by simp [typecheck, pytruthy], .prim .none, .none,
      by simp [convert_to_j], by simp [convert_to_py, jtruthy, pytruthy, pyOfJ],
      by simp [pyEq]⟩
  case genotype i =>
    exact ⟨by simp [typecheck, isInstGenotype], .jgenotype i, .genotype i,
      by simp [convert_to_j, jrepOf], by simp [convert_to_py, jtruthy], by simp [pyEq]⟩
| .tCall, v, _, hs => by
  cases v <;> try simp [strict] at hs
  case none =>
    exact ⟨by simp [typecheck, pytruthy], .prim .none, .none,
      by simp [convert_to_j], by simp [convert_to_py, jtruthy, pytruthy, pyOfJ],
      by simp [pyEq]⟩
  case call i =>
    exact ⟨by simp [typecheck, isInstCall], .jcall i, .call i,
      by simp [convert_to_j, jrepOf], by simp [convert_to_py, jtruthy], by simp [pyEq]⟩
| .tLocus, v, _, hs => by
  cases v <;> try simp [strict] at hs
  case none =>
    exact ⟨by simp [typecheck, pytruthy], .prim .none, .none,
      by simp [convert_to_j], by simp [convert_to_py, jtruthy, pytruthy, pyOfJ],
      by simp [pyEq]⟩
  case locus i =>
    exact ⟨by simp [typecheck, isInstLocus], .jlocus i, .locus i,
      by simp [convert_to_j, jrepOf], by simp [convert_to_py, jtruthy], by simp [pyEq]⟩
| .tInterval, v, _, hs => by
  cases v <;> try simp [strict] at hs
  case none =>
    exact ⟨by simp [typecheck, pytruthy], .prim .none, .none,
      by simp [convert_to_j], by simp [convert_to_py, jtruthy, pytruthy, pyOfJ],
      by simp [pyEq]⟩
  case interval i =>
    exact ⟨by simp [typecheck, isInstInterval], .jinterval i, .interval i,
      by simp [convert_to_j, jrepOf], by simp [convert_to_py, jtruthy], by simp [pyEq]⟩
termination_by T v => (sizeOf T, sizeOf v)

theorem rtList : (e : PyType) → (xs : List PyValue) → noTFloat e = true →
    strictList e xs = true →
    typecheckElems e xs = .ok () ∧
    ∃ js ws, convert_to_jElems e xs = .ok js ∧
      convert_to_pyElems e js = .ok ws ∧ pyEqList ws xs = true
| e, [], _, _ => by
  refine ⟨by simp [typecheckElems], [], [], ?_, ?_, ?_⟩
  · simp [convert_to_jElems]
  · simp [convert_to_pyElems]
  · simp [pyEqList]
| e, x :: r, hf, hs => by
  have hx : strict e x = true ∧ strictList e r = true := by
    simpa [strictList, Bool.and_eq_true] using hs
  obtain ⟨htc, j, w, hcj, hcp, heq⟩ := rt e x hf hx.1
  obtain ⟨htcr, js, ws, hcjr, hcpr, heqr⟩ := rtList e r hf hx.2
  refine ⟨?_, j :: js, w :: ws, ?_, ?_, ?_⟩
  · simp [typecheckElems, htc, htcr]
  · simp [convert_to_jElems, hcj, hcjr]
  · simp [convert_to_pyElems, hcp, hcpr]
  · simp [pyEqList, heq, heqr]
termination_by e xs => (sizeOf e, sizeOf xs)

theorem rtPairs : (kt vt : PyType) → (ps : List (PyValue × PyValue)) →
    noTFloat kt = true → noTFloat vt = true → strictPairs kt vt ps = true →
    typecheckPairs kt vt ps = .ok () ∧
    ∃ qs rs, convert_to_jPairs kt vt ps = .ok qs ∧
      convert_to_pyPairs kt vt qs = .ok rs ∧ pyEqPairs rs ps = true
| kt, vt, [], _, _, _ => by
  refine ⟨by simp [typecheckPairs], [], [], ?_, ?_, ?_⟩
  · simp [convert_to_jPairs]
  · simp [convert_to_pyPairs]
  · simp [pyEqPairs]
| kt, vt, (k, v) :: r, hfk, hfv, hs => by
  have hx : strict kt k = true ∧ strict vt v = true ∧ strictPairs kt vt r = true := by
    simpa [strictPairs, Bool.and_eq_true, and_assoc] using hs
  obtain ⟨htck, jk, wk, hcjk, hcpk, heqk⟩ := rt kt k hfk hx.1
  obtain ⟨htcv, jv, wv, hcjv, hcpv, heqv⟩ := rt vt v hfv hx.2.1
  obtain ⟨htcr, qs, rs, hcjr, hcpr, heqr⟩ := rtPairs kt vt r hfk hfv hx.2.2
  refine ⟨?_, (jk, jv) :: qs, (wk, wv) :: rs, ?_, ?_, ?_⟩
  · simp [typecheckPairs, htck, htcv, htcr]
  · simp [convert_to_jPairs, hcjk, hcjv, hcjr]
  · simp [convert_to_pyPairs, hcpk, hcpv, hcpr]
  · simp [pyEqPairs, heqk, heqv, heqr]
termination_by kt vt ps => (sizeOf kt + sizeOf vt, sizeOf ps)
decreasing_by
  all_goals simp_wf
  all_goals first
    | (apply Prod.Lex.right; omega)
    | (apply Prod.Lex.left; have hvt := pyType_sizeOf_pos vt; omega)
    | (apply Prod.Lex.left; have hkt := pyType_sizeOf_pos kt; omega)

theorem rtFields : (fl : List (String × PyType)) → (vl : List (String × PyValue)) →
    (fs : List (String × PyValue)) →
    noTFloatFields fl = true → strictFields fl vl = true →
    (∀ m tm, (m, tm) ∈ fl → assocLookup fs m = assocLookup vl m) →
    typecheckFields fl fs = .ok () ∧
    ∃ js, convert_to_jFields fl (.struct fs) = .ok js ∧
    ∃ ws, convert_to_pyFieldsZip fl js = .ok ws ∧ pyEqFields ws vl = true
| [], [], fs, _, _, _ => by
  refine ⟨by simp [typecheckFields], [], ?_, [], ?_, ?_⟩
  · simp [convert_to_jFields]
  · simp [convert_to_pyFieldsZip]
  · simp [pyEqFields]
| [], p :: vr, fs, _, hsf, _ => by simp [strictFields] at hsf
| (n, t) :: fr, [], fs, _, hsf, _ => by simp [strictFields] at hsf
| (n, t) :: fr, (m, v) :: vr, fs, hff, hsf, hlk => by
  have hparts : (n = m ∧ (assocLookup fr n).isNone = true) ∧
      strict t v = true ∧ strictFields fr vr = true := by
    simpa [strictFields, Bool.and_eq_true, decide_eq_true_eq, and_assoc] using hsf
  obtain ⟨⟨hnm, hnorep⟩, hstv, hsr⟩ := hparts
  have hfp : noTFloat t = true ∧ noTFloatFields fr = true := by
    simpa [noTFloatFields, Bool.and_eq_true] using hff
  have hlkn : assocLookup fs n = some v := by
    have h0 := hlk n t (List.mem_cons_self _ _)
    rw [h0, hnm]
    simp [assocLookup]
  have hsg : structGet (.struct fs) n = .ok v := by simp [structGet, hlkn]
  obtain ⟨htc, j, w, hcj, hcp, heq⟩ := rt t v hfp.1 hstv
  have hlk' : ∀ m2 tm2, (m2, tm2) ∈ fr → assocLookup fs m2 = assocLookup vr m2 := by
    intro m2 tm2 hm2
    have h0 := hlk m2 tm2 (List.mem_cons_of_mem _ hm2)
    have hm2n : m2 ≠ n := by
      intro hEq
      have hsome := assocLookup_isSome_of_mem fr m2 tm2 hm2
      rw [hEq, Option.isNone_iff_eq_none.mp hnorep] at hsome
      simp at hsome
    have hmm2 : ¬ (m = m2) := fun hc => hm2n (by rw [← hc, ← hnm])
    rw [h0]
    simp [assocLookup, hmm2]
  obtain ⟨htcr, js, hcjr, ws, hcpr, heqr⟩ := rtFields fr vr fs hfp.2 hsr hlk'
  refine ⟨?_, j :: js, ?_, (n, w) :: ws, ?_, ?_⟩
  · simp [typecheckFields, hlkn, htc, htcr]
  · simp [convert_to_jFields, hsg, hcj, hcjr]
  · simp [convert_to_pyFieldsZip, hcp, hcpr]
  · simp [pyEqFields, hnm, heq, heqr]
termination_by fl vl _ => (sizeOf fl, sizeOf vl)

end

/-- C4 (amended): for every mirrored tag in which TFloat does not occur,
and every value strictly conforming to the tag's shape — a subset of the
values passing `_typecheck` — `_convert_to_j` succeeds.  As stated the
claim fails: `TFloat._convert_to_j` always raises NotImplementedError,
and falsy values of the wrong shape pass `_typecheck` but can make
`_convert_to_j` raise (see the counterexample). -/
theorem convert_to_j_total_strict :
    ∀ (T : PyType) (v : PyValue), noTFloat T = true → strict T v = true →
      typecheck T v = .ok () ∧ ∃ j, convert_to_j T v = .ok j := by
  intro T v hf hs
  obtain ⟨htc, j, w, hcj, _, _⟩ := rt T v hf hs
  exact ⟨htc, j, hcj⟩

theorem convert_to_j_total_strict_witness :
    noTFloat (.tArray .tInt) = true ∧ strict (.tArray .tInt) (.list [.int 5]) = true ∧
    (typecheck (.tArray .tInt) (.list [.int 5]) = .ok () ∧
      ∃ j, convert_to_j (.tArray .tInt) (.list [.int 5]) = .ok j) :=
  ⟨by simp [noTFloat], by simp [strict, strictList],
   convert_to_j_total_strict (.tArray .tInt) (.list [.int 5])
     (by simp [noTFloat]) (by simp [strict, strictList])⟩

/-- C4, counterexample to the claim as stated: 1.0 passes
`TFloat()._typecheck` but `TFloat()._convert_to_j` raises
NotImplementedError; and 0 passes `TArray(TInt())._typecheck` (it is
falsy) but `TArray(TInt())._convert_to_j(0)` raises TypeError when it
iterates the int. -/
theorem convert_to_j_counterexample :
    (typecheck .tFloat (.float 1) = .ok () ∧
      convert_to_j .tFloat (.float 1) = .error .notImplementedError) ∧
    (typecheck (.tArray .tInt) (.int 0) = .ok () ∧
      convert_to_j (.tArray .tInt) (.int 0) = .error .typeError) := by
  refine ⟨⟨?_, ?_⟩, ?_, ?_⟩
  · simp [typecheck, isInstFloat]
  · simp [convert_to_j]
  · simp [typecheck, pytruthy]
  · simp [convert_to_j, pyIter]

/-- C6 (amended): for every tag in which TFloat does not occur and every
strictly conforming value `v` (for TStruct: the value's fields are exactly
the declared, distinct field names) — a subset of the values passing
`_typecheck` — `_convert_to_py (_convert_to_j v)` returns a value equal
to `v` under Python equality, with the bridge's serialization modelled as
faithful. -/
theorem marshal_roundtrip_strict :
    ∀ (T : PyType) (v : PyValue), noTFloat T = true → strict T v = true →
      ∃ j w, convert_to_j T v = .ok j ∧ convert_to_py T j = .ok w ∧ pyEq w v = true := by
  intro T v hf hs
  exact (rt T v hf hs).2

theorem marshal_roundtrip_strict_witness :
    noTFloat .tLong = true ∧ strict .tLong (.int 2) = true ∧
    (∃ j w, convert_to_j .tLong (.int 2) = .ok j ∧
      convert_to_py .tLong j = .ok w ∧ pyEq w (.int 2) = true) :=
  ⟨by simp [noTFloat], by simp [strict],
   marshal_roundtrip_strict .tLong (.int 2) (by simp [noTFloat]) (by simp [strict])⟩

/-- C6, counterexample to the claim as stated: for T = TFloat the
round trip does not even start (1.0 passes `_typecheck` and
`_convert_to_j` raises NotImplementedError); and a Struct with an extra
field passes `TStruct([],[])._typecheck` but round-trips to a Struct
without that field, which is not equal to the original. -/
theorem marshal_roundtrip_counterexample :
    (typecheck .tFloat (.float 1) = .ok () ∧
      convert_to_j .tFloat (.float 1) = .error .notImplementedError) ∧
    (typecheck (.tStruct []) (.struct [("x", .int 1)]) = .ok () ∧
      convert_to_j (.tStruct []) (.struct [("x", .int 1)]) = .ok (.jrow []) ∧
      convert_to_py (.tStruct []) (.jrow []) = .ok (.struct []) ∧
      pyEq (.struct []) (.struct [("x", .int 1)]) = false ∧
      PyValue.struct [] ≠ PyValue.struct [("x", .int 1)]) := by
  refine ⟨⟨?_, ?_⟩, ?_, ?_, ?_, ?_, ?_⟩
  · simp [typecheck, isInstFloat]
  · simp [convert_to_j]
  · simp [typecheck, pytruthy, typecheckFields]
  · simp [convert_to_j, convert_to_jFields]
  · simp [convert_to_py, jtruthy, convert_to_pyFieldsIdx]
  · simp [pyEq, pyEqFields]
  · simp
